import Mathlib

/-!
Verification of the comment-scrubbing core of `mdbook-nocomment`
(`src/lib.rs`).  The token stream handed to `remove_comment` is modelled
shallowly: pulldown-cmark events are reduced to the three shapes the
function distinguishes (`Text`, `Html`, and everything else, which it
treats uniformly), and string payloads are lists of characters with the
Rust `str` operations (`eq`, `starts_with`, `ends_with`, `trim_end`)
spelled out as executable list functions.  The `MultiPeek` cursor of the
Rust code is modelled by an explicit peek index into the not-yet-consumed
remainder of the stream: `peek()` reads at the index and advances it,
`next()` pops the front and resets the index, exactly as in itertools.
-/

namespace NoComment

/-- One pulldown-cmark event, as far as `remove_comment` can tell events
apart: `Event::Text`, `Event::Html`, and every other variant (start/end
tags, breaks, rules, ...), which the function never inspects beyond its
not being `Text` or `Html`.  The `Nat` tag keeps distinct structural
events distinct. -/
inductive Event where
  | text (s : List Char)
  | html (s : List Char)
  | other (tag : Nat)
deriving DecidableEq, Repr

/-- Character list of a string literal, used to write concrete payloads. -/
def chars (s : String) : List Char := s.data

/-- Rust `str::starts_with`: `isPre p s` holds when `p` is a prefix of `s`. -/
def isPre : List Char → List Char → Bool
  | [], _ => true
  | _ :: _, [] => false
  | a :: p, b :: s => a == b && isPre p s

/-- Rust `str::ends_with`: `isSuf p s` holds when `p` is a suffix of `s`. -/
def isSuf (p s : List Char) : Bool := isPre p.reverse s.reverse

/-- Rust `str::trim_end`: drop trailing whitespace.  (Rust trims Unicode
`White_Space`; on the ASCII whitespace relevant here the two agree.) -/
def trimEnd (s : List Char) : List Char := (s.reverse.dropWhile Char.isWhitespace).reverse

/-- `COMMENT_START` from the source: the literal `<!--`. -/
def COMMENT_START : List Char := ['<', '!', '-', '-']

/-- `COMMENT_END` from the source: the literal `-->`. -/
def COMMENT_END : List Char := ['-', '-', '>']

/-- The payload `!--` that the second token of a split opener must start
with (`t2.starts_with("!--")` in the source). -/
def BANG_DASH_DASH : List Char := ['!', '-', '-']

/-- The one-character payload `<` that triggers the split-token case
(`t1.as_ref().eq("<")` in the source). -/
def LT_TOK : List Char := ['<']

/-- The closing-marker test used throughout `remove_comment`:
`x.trim_end().ends_with(COMMENT_END)`. -/
def endsWithCE (s : List Char) : Bool := isSuf COMMENT_END (trimEnd s)

/-- The inner lookahead loop of the split-token case (source lines 64-84):
starting after the `!--` token, peek successive events; a `Text` event is
checked for the closing marker, any other event is counted and skipped,
end of stream stops the search.  Returns the number of events scanned up
to and including the first closing `Text` event (the source's `count`),
or `none` when the stream ends first. -/
def textScan : List Event → Option Nat
  | [] => none
  | Event.text c :: rest =>
      if endsWithCE c then some 1 else (textScan rest).map (· + 1)
  | _ :: rest => (textScan rest).map (· + 1)

/-- The inner lookahead loop of the whole-token (`Event::Html`) case
(source lines 106-123).  `buf` is the not-yet-consumed remainder of the
stream after the opening token, `i` the `MultiPeek` peek index (so the
peek succeeds exactly when `i < buf.length`), `cnt` and `found` the loop
variables of the source.  Peeking a non-`Html` event or the end of the
stream breaks the loop; peeking an `Html` event bumps `cnt`; if it
carries the closing marker the source sets `found`, consumes `cnt`
events (which resets the peek index) and keeps looping.  Note that `cnt`
is not reset after a span closes, exactly as in the source.  Returns the
final `found` flag and the remaining stream. -/
def htmlLoop (buf : List Event) (i cnt : Nat) (found : Bool) : Bool × List Event :=
  if hlt : i < buf.length then
    match buf.get ⟨i, hlt⟩ with
    | Event.html h =>
        if endsWithCE h then
          htmlLoop (buf.drop (cnt + 1)) 0 (cnt + 1) true
        else
          htmlLoop buf (i + 1) (cnt + 1) found
    | _ => (found, buf)
  else (found, buf)
termination_by (buf.length, buf.length - i)
decreasing_by
  · apply Prod.Lex.left
    simp only [List.length_drop]
    omega
  · apply Prod.Lex.right
    omega

/-- Upper bound used for termination of the outer loop: the html-case
lookahead never lengthens the remaining stream. -/
theorem htmlLoop_length_le (buf : List Event) (i cnt : Nat) (found : Bool) :
    (htmlLoop buf i cnt found).2.length ≤ buf.length := by
  induction buf, i, cnt, found using htmlLoop.induct with
  | case1 buf i cnt found hlt h hget hce ih =>
      rw [htmlLoop, dif_pos hlt, hget]
      dsimp only
      rw [if_pos hce]
      calc (htmlLoop (buf.drop (cnt + 1)) 0 (cnt + 1) true).2.length
          ≤ (buf.drop (cnt + 1)).length := ih
        _ ≤ buf.length := by simp only [List.length_drop]; omega
  | case2 buf i cnt found hlt h hget hce ih =>
      rw [htmlLoop, dif_pos hlt, hget]
      dsimp only
      rw [if_neg hce]
      exact ih
  | case3 buf i cnt found hlt hne =>
      rw [htmlLoop, dif_pos hlt]
      rcases hg : buf.get ⟨i, hlt⟩ with s | s | t
      · exact Nat.le_refl _
      · exact absurd hg (hne s)
      · exact Nat.le_refl _
  | case4 buf i cnt found hlt =>
      rw [htmlLoop, dif_neg hlt]

/-- `remove_comment` (source lines 40-133), as a function on the
materialized event list.  Each outer iteration takes the current event
off the front; the two trigger shapes are dispatched exactly as in the
source `match`, and the stream left over after the html-case lookahead is
whatever `htmlLoop` did not consume (when the span never closed, nothing
was consumed, so the peeked events are re-examined in later iterations). -/
def removeComment : List Event → List Event
  | [] => []
  | Event.text t1 :: Event.text t2 :: rest2 =>
      if t1 = LT_TOK then
        if isPre BANG_DASH_DASH t2 then
          if endsWithCE t2 then
            removeComment rest2
          else
            match textScan rest2 with
            | some count => removeComment (rest2.drop count)
            | none => Event.text t1 :: removeComment (Event.text t2 :: rest2)
        else Event.text t1 :: removeComment (Event.text t2 :: rest2)
      else Event.text t1 :: removeComment (Event.text t2 :: rest2)
  | Event.text t1 :: rest => Event.text t1 :: removeComment rest
  | Event.html s :: rest =>
      if isPre COMMENT_START s then
        if endsWithCE s then
          removeComment rest
        else
          let r := htmlLoop rest 0 0 false
          if r.1 then removeComment r.2
          else Event.html s :: removeComment r.2
      else Event.html s :: removeComment rest
  | Event.other t :: rest => Event.other t :: removeComment rest
termination_by l => l.length
decreasing_by
  all_goals simp only [List.length_cons, List.length_drop]
  all_goals try omega
  · have hb := htmlLoop_length_le rest 0 0 false
    omega
  · have hb := htmlLoop_length_le rest 0 0 false
    omega

/-- `NoCommentPreprocessor::supports_renderer` (source lines 35-37). -/
def supports_renderer (renderer : String) : Bool := renderer != "not-supported"

/-- Whether `p` occurs as a contiguous substring of `s`. -/
def occursIn (p : List Char) : List Char → Bool
  | [] => p.isEmpty
  | c :: s => isPre p (c :: s) || occursIn p s

/-- Whether an event's payload contains the literal `<!--`. -/
def payloadHasOpen : Event → Bool
  | Event.text s => occursIn COMMENT_START s
  | Event.html s => occursIn COMMENT_START s
  | Event.other _ => false

/-- Whether a stream starts with the split-token opener shape: a `Text`
token that is exactly `<` followed by a `Text` token starting with `!--`. -/
def headPair : List Event → Bool
  | Event.text t1 :: Event.text t2 :: _ => t1 == LT_TOK && isPre BANG_DASH_DASH t2
  | _ => false

/-- No `<!--` occurrence anywhere in the stream: neither inside a single
token's payload nor split across a `<` text token and a following `!--...`
text token. -/
def noCommentOpen : List Event → Bool
  | [] => true
  | e :: rest => !payloadHasOpen e && !headPair (e :: rest) && noCommentOpen rest

/-- Whether an event is a `Text` or `Html` token whose trimmed payload
ends with the closing marker `-->` (structural events carry no payload). -/
def eventEndsCE : Event → Bool
  | Event.text s => endsWithCE s
  | Event.html s => endsWithCE s
  | Event.other _ => false

/-- A prefix occurrence is in particular a substring occurrence. -/
theorem occursIn_of_isPre {p s : List Char} (h : isPre p s = true) :
    occursIn p s = true := by
  cases s with
  | nil =>
      cases p with
      | nil => rfl
      | cons a q => simp [isPre] at h
  | cons c t => simp [occursIn, h]

/-- Unfolding: the html lookahead closes a span and keeps looping. -/
theorem htmlLoop_eq_close {buf : List Event} {i : Nat} (hlt : i < buf.length)
    {h : List Char} (hget : buf.get ⟨i, hlt⟩ = Event.html h)
    (hce : endsWithCE h = true) (cnt : Nat) (found : Bool) :
    htmlLoop buf i cnt found = htmlLoop (buf.drop (cnt + 1)) 0 (cnt + 1) true := by
  rw [htmlLoop, dif_pos hlt, hget]
  dsimp only
  rw [if_pos hce]

/-- Unfolding: the html lookahead peeks past a non-closing html event. -/
theorem htmlLoop_eq_step {buf : List Event} {i : Nat} (hlt : i < buf.length)
    {h : List Char} (hget : buf.get ⟨i, hlt⟩ = Event.html h)
    (hce : endsWithCE h = false) (cnt : Nat) (found : Bool) :
    htmlLoop buf i cnt found = htmlLoop buf (i + 1) (cnt + 1) found := by
  rw [htmlLoop, dif_pos hlt, hget]
  dsimp only
  rw [if_neg (by simp [hce])]

/-- Unfolding: the html lookahead stops at a non-html event. -/
theorem htmlLoop_eq_stop {buf : List Event} {i : Nat} (hlt : i < buf.length)
    (hno : ∀ h : List Char, buf.get ⟨i, hlt⟩ ≠ Event.html h) (cnt : Nat) (found : Bool) :
    htmlLoop buf i cnt found = (found, buf) := by
  rw [htmlLoop, dif_pos hlt]
  rcases hg : buf.get ⟨i, hlt⟩ with s | s | t
  · rfl
  · exact absurd hg (hno s)
  · rfl

/-- Unfolding: the html lookahead stops at the end of the stream. -/
theorem htmlLoop_eq_end {buf : List Event} {i : Nat} (hge : buf.length ≤ i)
    (cnt : Nat) (found : Bool) :
    htmlLoop buf i cnt found = (found, buf) := by
  rw [htmlLoop, dif_neg (Nat.not_lt.mpr hge)]

/-- If no html event in the remainder carries the closing marker, the html
lookahead finds nothing and consumes nothing. -/
theorem htmlLoop_no_close : ∀ buf : List Event, ∀ i cnt : Nat, ∀ found : Bool,
    (∀ s : List Char, Event.html s ∈ buf → endsWithCE s = false) →
    htmlLoop buf i cnt found = (found, buf) := by
  intro buf i cnt found
  induction buf, i, cnt, found using htmlLoop.induct with
  | case1 buf i cnt found hlt h hget hce ih =>
      intro hno
      have hmem : Event.html h ∈ buf := hget ▸ buf.get_mem i hlt
      exact absurd hce (by simp [hno h hmem])
  | case2 buf i cnt found hlt h hget hce ih =>
      intro hno
      rw [htmlLoop_eq_step hlt hget (by simpa using hce)]
      exact ih hno
  | case3 buf i cnt found hlt hne =>
      intro _
      exact htmlLoop_eq_stop hlt (fun h hh => hne h hh) cnt found
  | case4 buf i cnt found hlt =>
      intro _
      exact htmlLoop_eq_end (Nat.le_of_not_lt hlt) cnt found

/-- If the html lookahead reports "not found", it consumed nothing: the
remaining stream is exactly what it started from. -/
theorem htmlLoop_not_found : ∀ buf : List Event, ∀ i cnt : Nat, ∀ found : Bool,
    (htmlLoop buf i cnt found).1 = false →
    found = false ∧ (htmlLoop buf i cnt found).2 = buf := by
  intro buf i cnt found
  induction buf, i, cnt, found using htmlLoop.induct with
  | case1 buf i cnt found hlt h hget hce ih =>
      intro hf
      rw [htmlLoop_eq_close hlt hget hce] at hf
      exact absurd (ih hf).1 (by simp)
  | case2 buf i cnt found hlt h hget hce ih =>
      intro hf
      rw [htmlLoop_eq_step hlt hget (by simpa using hce)] at hf ⊢
      exact ih hf
  | case3 buf i cnt found hlt hne =>
      intro hf
      rw [htmlLoop_eq_stop hlt (fun h hh => hne h hh) cnt found] at hf
      exact ⟨hf, htmlLoop_eq_stop hlt (fun h hh => hne h hh) cnt found ▸ rfl⟩
  | case4 buf i cnt found hlt =>
      intro hf
      rw [htmlLoop_eq_end (Nat.le_of_not_lt hlt) cnt found] at hf
      exact ⟨hf, htmlLoop_eq_end (Nat.le_of_not_lt hlt) cnt found ▸ rfl⟩

/-- The stream left over by the html lookahead is a suffix of the stream
it started from. -/
theorem htmlLoop_suffix : ∀ buf : List Event, ∀ i cnt : Nat, ∀ found : Bool,
    (htmlLoop buf i cnt found).2 <:+ buf := by
  intro buf i cnt found
  induction buf, i, cnt, found using htmlLoop.induct with
  | case1 buf i cnt found hlt h hget hce ih =>
      rw [htmlLoop_eq_close hlt hget hce]
      exact ih.trans (List.drop_suffix (cnt + 1) buf)
  | case2 buf i cnt found hlt h hget hce ih =>
      rw [htmlLoop_eq_step hlt hget (by simpa using hce)]
      exact ih
  | case3 buf i cnt found hlt hne =>
      rw [htmlLoop_eq_stop hlt (fun h hh => hne h hh) cnt found]
  | case4 buf i cnt found hlt =>
      rw [htmlLoop_eq_end (Nat.le_of_not_lt hlt) cnt found]

/-- If no text event in the scanned remainder carries the closing marker,
the split-case lookahead scans to the end of the stream and fails. -/
theorem textScan_eq_none : ∀ buf : List Event,
    (∀ s : List Char, Event.text s ∈ buf → endsWithCE s = false) →
    textScan buf = none := by
  intro buf
  induction buf with
  | nil => intro _; rfl
  | cons e rest ih =>
      intro hno
      have hrest : ∀ s : List Char, Event.text s ∈ rest → endsWithCE s = false :=
        fun s hs => hno s (List.mem_cons_of_mem _ hs)
      cases e with
      | text c =>
          have hc : endsWithCE c = false := hno c (List.mem_cons_self _ _)
          simp [textScan, hc, ih hrest]
      | html s => simp [textScan, ih hrest]
      | other t => simp [textScan, ih hrest]

/-- Unfolding: empty stream. -/
theorem removeComment_nil : removeComment [] = [] := by
  simp only [removeComment]

/-- Unfolding: split opener whose second token already closes the span.
Both tokens are discarded. -/
theorem removeComment_pair_selfclose {t2 : List Char} {rest2 : List Event}
    (hpre : isPre BANG_DASH_DASH t2 = true) (hce : endsWithCE t2 = true) :
    removeComment (Event.text LT_TOK :: Event.text t2 :: rest2) = removeComment rest2 := by
  simp [removeComment, hpre, hce]

/-- Unfolding: split opener whose span closes after `count` further
scanned events.  All of them are discarded. -/
theorem removeComment_pair_found {t2 : List Char} {rest2 : List Event} {count : Nat}
    (hpre : isPre BANG_DASH_DASH t2 = true) (hnce : endsWithCE t2 = false)
    (hscan : textScan rest2 = some count) :
    removeComment (Event.text LT_TOK :: Event.text t2 :: rest2)
      = removeComment (rest2.drop count) := by
  simp [removeComment, hpre, hnce, hscan]

/-- Unfolding: split opener whose span never closes.  Only the `<` token
is emitted now; the rest of the stream is re-examined. -/
theorem removeComment_pair_none {t2 : List Char} {rest2 : List Event}
    (hpre : isPre BANG_DASH_DASH t2 = true) (hnce : endsWithCE t2 = false)
    (hscan : textScan rest2 = none) :
    removeComment (Event.text LT_TOK :: Event.text t2 :: rest2)
      = Event.text LT_TOK :: removeComment (Event.text t2 :: rest2) := by
  simp [removeComment, hpre, hnce, hscan]

/-- Unfolding: two adjacent text tokens whose second does not start with
`!--` never trigger; the first is forwarded. -/
theorem removeComment_pair_nopre {t1 t2 : List Char} {rest2 : List Event}
    (hnpre : isPre BANG_DASH_DASH t2 = false) :
    removeComment (Event.text t1 :: Event.text t2 :: rest2)
      = Event.text t1 :: removeComment (Event.text t2 :: rest2) := by
  by_cases h : t1 = LT_TOK
  · subst h; simp [removeComment, hnpre]
  · simp [removeComment, h]

/-- Unfolding: a text token other than `<` before another text token is
forwarded unexamined. -/
theorem removeComment_pair_nlt {t1 t2 : List Char} {rest2 : List Event}
    (h : t1 ≠ LT_TOK) :
    removeComment (Event.text t1 :: Event.text t2 :: rest2)
      = Event.text t1 :: removeComment (Event.text t2 :: rest2) := by
  simp [removeComment, h]

/-- Unfolding: a text token not followed by another text token is
forwarded (the split trigger needs a text successor). -/
theorem removeComment_text_single {t1 : List Char} {rest : List Event}
    (h : ∀ (t2 : List Char) (rest2 : List Event), rest ≠ Event.text t2 :: rest2) :
    removeComment (Event.text t1 :: rest) = Event.text t1 :: removeComment rest := by
  cases rest with
  | nil => simp only [removeComment]
  | cons e r =>
      cases e with
      | text s => exact absurd rfl (h s r)
      | html s => simp only [removeComment]
      | other t => simp only [removeComment]

/-- Unfolding: a self-closing html comment token is dropped alone. -/
theorem removeComment_html_selfclose {s : List Char} {rest : List Event}
    (hpre : isPre COMMENT_START s = true) (hce : endsWithCE s = true) :
    removeComment (Event.html s :: rest) = removeComment rest := by
  simp [removeComment, hpre, hce]

/-- Unfolding: an html comment opener that does not close by itself runs
the html lookahead; it is dropped or forwarded according to the result. -/
theorem removeComment_html_scan {s : List Char} {rest : List Event}
    (hpre : isPre COMMENT_START s = true) (hnce : endsWithCE s = false) :
    removeComment (Event.html s :: rest)
      = (if (htmlLoop rest 0 0 false).1 then removeComment (htmlLoop rest 0 0 false).2
         else Event.html s :: removeComment (htmlLoop rest 0 0 false).2) := by
  simp [removeComment, hpre, hnce]

/-- Unfolding: an html token not starting with `<!--` is forwarded. -/
theorem removeComment_html_nopre {s : List Char} {rest : List Event}
    (hnpre : isPre COMMENT_START s = false) :
    removeComment (Event.html s :: rest) = Event.html s :: removeComment rest := by
  simp [removeComment, hnpre]

/-- Unfolding: structural events are forwarded unexamined. -/
theorem removeComment_other {t : Nat} {rest : List Event} :
    removeComment (Event.other t :: rest) = Event.other t :: removeComment rest := by
  simp only [removeComment]
/-- Destructuring a no-open certificate over a cons cell. -/
theorem noCommentOpen_cons {e : Event} {rest : List Event}
    (h : noCommentOpen (e :: rest) = true) :
    noCommentOpen rest = true ∧ payloadHasOpen e = false ∧ headPair (e :: rest) = false := by
  simp only [noCommentOpen, Bool.and_eq_true, Bool.not_eq_true'] at h
  exact ⟨h.2, h.1.1, h.1.2⟩

/-- Core preservation lemma: if no text or html payload anywhere in the
stream ends (trimmed) with `-->`, then no span can ever close, and the
scrubber reproduces its input unchanged. -/
theorem removeComment_eq_self_of_no_close : ∀ l : List Event,
    (∀ e ∈ l, eventEndsCE e = false) → removeComment l = l := by
  intro l
  induction l using removeComment.induct with
  | case1 => intro _; exact removeComment_nil
  | case2 t2 rest2 hpre hce ih =>
      intro hno
      have h2 := hno (Event.text t2) (by simp)
      simp [eventEndsCE, hce] at h2
  | case3 t2 rest2 hpre hnce count hscan ih =>
      intro hno
      have hn : textScan rest2 = none := textScan_eq_none rest2 (fun s hs => by
        have h2 := hno (Event.text s) (by simp [hs])
        simpa [eventEndsCE] using h2)
      rw [hn] at hscan
      simp at hscan
  | case4 t2 rest2 hpre hnce hscan ih =>
      intro hno
      rw [removeComment_pair_none hpre (by simpa using hnce) hscan]
      rw [ih (fun e he => hno e (List.mem_cons_of_mem _ he))]
  | case5 t2 rest2 hnpre ih =>
      intro hno
      rw [removeComment_pair_nopre (by simpa using hnpre)]
      rw [ih (fun e he => hno e (List.mem_cons_of_mem _ he))]
  | case6 t1 t2 rest2 hnlt ih =>
      intro hno
      rw [removeComment_pair_nlt hnlt]
      rw [ih (fun e he => hno e (List.mem_cons_of_mem _ he))]
  | case7 t1 rest hnp ih =>
      intro hno
      rw [removeComment_text_single (fun a b => hnp a b)]
      rw [ih (fun e he => hno e (List.mem_cons_of_mem _ he))]
  | case8 s rest hpre hce ih =>
      intro hno
      have h2 := hno (Event.html s) (by simp)
      simp [eventEndsCE, hce] at h2
  | case9 s rest hpre hnce r hf ih =>
      intro hno
      have hnc : htmlLoop rest 0 0 false = (false, rest) :=
        htmlLoop_no_close rest 0 0 false (fun s2 hs2 => by
          have h2 := hno (Event.html s2) (List.mem_cons_of_mem _ hs2)
          simpa [eventEndsCE] using h2)
      have hr : r = htmlLoop rest 0 0 false := rfl
      rw [hr, hnc] at hf
      simp at hf
  | case10 s rest hpre hnce r hf ih =>
      intro hno
      have hnc : htmlLoop rest 0 0 false = (false, rest) :=
        htmlLoop_no_close rest 0 0 false (fun s2 hs2 => by
          have h2 := hno (Event.html s2) (List.mem_cons_of_mem _ hs2)
          simpa [eventEndsCE] using h2)
      have hr : r = htmlLoop rest 0 0 false := rfl
      rw [hr, hnc] at ih
      rw [removeComment_html_scan hpre (by simpa using hnce), hnc]
      simp only [Bool.false_eq_true, if_false]
      rw [ih (fun e he => hno e (List.mem_cons_of_mem _ he))]
  | case11 s rest hnpre ih =>
      intro hno
      rw [removeComment_html_nopre (by simpa using hnpre)]
      rw [ih (fun e he => hno e (List.mem_cons_of_mem _ he))]
  | case12 t rest ih =>
      intro hno
      rw [removeComment_other]
      rw [ih (fun e he => hno e (List.mem_cons_of_mem _ he))]

/-- Fixpoint lemma: a stream with no `<!--` occurrence anywhere (whole or
split) is reproduced unchanged. -/
theorem removeComment_fix_of_noOpen : ∀ l : List Event,
    noCommentOpen l = true → removeComment l = l := by
  intro l
  induction l using removeComment.induct with
  | case1 => intro _; exact removeComment_nil
  | case2 t2 rest2 hpre hce ih =>
      intro hno
      have hp := (noCommentOpen_cons hno).2.2
      simp [headPair, hpre] at hp
  | case3 t2 rest2 hpre hnce count hscan ih =>
      intro hno
      have hp := (noCommentOpen_cons hno).2.2
      simp [headPair, hpre] at hp
  | case4 t2 rest2 hpre hnce hscan ih =>
      intro hno
      have hp := (noCommentOpen_cons hno).2.2
      simp [headPair, hpre] at hp
  | case5 t2 rest2 hnpre ih =>
      intro hno
      rw [removeComment_pair_nopre (by simpa using hnpre)]
      rw [ih (noCommentOpen_cons hno).1]
  | case6 t1 t2 rest2 hnlt ih =>
      intro hno
      rw [removeComment_pair_nlt hnlt]
      rw [ih (noCommentOpen_cons hno).1]
  | case7 t1 rest hnp ih =>
      intro hno
      rw [removeComment_text_single (fun a b => hnp a b)]
      rw [ih (noCommentOpen_cons hno).1]
  | case8 s rest hpre hce ih =>
      intro hno
      have hp := (noCommentOpen_cons hno).2.1
      simp [payloadHasOpen, occursIn_of_isPre hpre] at hp
  | case9 s rest hpre hnce r hf ih =>
      intro hno
      have hp := (noCommentOpen_cons hno).2.1
      simp [payloadHasOpen, occursIn_of_isPre hpre] at hp
  | case10 s rest hpre hnce r hf ih =>
      intro hno
      have hp := (noCommentOpen_cons hno).2.1
      simp [payloadHasOpen, occursIn_of_isPre hpre] at hp
  | case11 s rest hnpre ih =>
      intro hno
      rw [removeComment_html_nopre (by simpa using hnpre)]
      rw [ih (noCommentOpen_cons hno).1]
  | case12 t rest ih =>
      intro hno
      rw [removeComment_other]
      rw [ih (noCommentOpen_cons hno).1]

/-- Structural invariant: the output is a sublist of the input (kept
tokens are input tokens, unmodified, in their original relative order). -/
theorem removeComment_sublist : ∀ l : List Event, List.Sublist (removeComment l) l := by
  intro l
  induction l using removeComment.induct with
  | case1 => rw [removeComment_nil]
  | case2 t2 rest2 hpre hce ih =>
      rw [removeComment_pair_selfclose hpre hce]
      exact ih.trans ((List.sublist_cons_self _ _).trans (List.sublist_cons_self _ _))
  | case3 t2 rest2 hpre hnce count hscan ih =>
      rw [removeComment_pair_found hpre (by simpa using hnce) hscan]
      exact ih.trans (((rest2.drop_sublist count).trans
        (List.sublist_cons_self _ _)).trans (List.sublist_cons_self _ _))
  | case4 t2 rest2 hpre hnce hscan ih =>
      rw [removeComment_pair_none hpre (by simpa using hnce) hscan]
      exact ih.cons₂ _
  | case5 t2 rest2 hnpre ih =>
      rw [removeComment_pair_nopre (by simpa using hnpre)]
      exact ih.cons₂ _
  | case6 t1 t2 rest2 hnlt ih =>
      rw [removeComment_pair_nlt hnlt]
      exact ih.cons₂ _
  | case7 t1 rest hnp ih =>
      rw [removeComment_text_single (fun a b => hnp a b)]
      exact ih.cons₂ _
  | case8 s rest hpre hce ih =>
      rw [removeComment_html_selfclose hpre hce]
      exact ih.trans (List.sublist_cons_self _ _)
  | case9 s rest hpre hnce r hf ih =>
      have hr : r = htmlLoop rest 0 0 false := rfl
      rw [hr] at hf ih
      rw [removeComment_html_scan hpre (by simpa using hnce), if_pos hf]
      exact (ih.trans (htmlLoop_suffix rest 0 0 false).sublist).trans
        (List.sublist_cons_self _ _)
  | case10 s rest hpre hnce r hf ih =>
      have hr : r = htmlLoop rest 0 0 false := rfl
      rw [hr] at hf ih
      rw [removeComment_html_scan hpre (by simpa using hnce),
        if_neg hf]
      exact (ih.trans (htmlLoop_suffix rest 0 0 false).sublist).cons₂ _
  | case11 s rest hnpre ih =>
      rw [removeComment_html_nopre (by simpa using hnpre)]
      exact ih.cons₂ _
  | case12 t rest ih =>
      rw [removeComment_other]
      exact ih.cons₂ _
/-- The split-case lookahead over `mid ++ [closer] ++ post` finds the
closer after scanning `mid.length + 1` events, provided no text event in
`mid` closes earlier; non-text events in `mid` are scanned past. -/
theorem textScan_append_close : ∀ mid : List Event, ∀ c : List Char, ∀ post : List Event,
    (∀ s : List Char, Event.text s ∈ mid → endsWithCE s = false) →
    endsWithCE c = true →
    textScan (mid ++ Event.text c :: post) = some (mid.length + 1) := by
  intro mid c post hmid hc
  induction mid with
  | nil => simp [textScan, hc]
  | cons e rest ih =>
      have hrest : ∀ s : List Char, Event.text s ∈ rest → endsWithCE s = false :=
        fun s hs => hmid s (List.mem_cons_of_mem _ hs)
      cases e with
      | text s =>
          have hs : endsWithCE s = false := hmid s (List.mem_cons_self _ _)
          simp [textScan, hs, ih hrest, List.length_cons]
      | html s => simp [textScan, ih hrest, List.length_cons]
      | other t => simp [textScan, ih hrest, List.length_cons]

/-- C2: in the split-token case, when the lookahead reaches the end of
the stream with no scanned token whose trimmed content ends with `-->`,
every token — the `<`, the `!--...` token, and all provisionally scanned
lookahead tokens — appears in the output, in original order, unaltered. -/
theorem c2_unclosed_split_restores_all (t2 : List Char) (rest2 : List Event)
    (_hpre : isPre BANG_DASH_DASH t2 = true)
    (hno : ∀ e ∈ Event.text t2 :: rest2, eventEndsCE e = false) :
    removeComment (Event.text LT_TOK :: Event.text t2 :: rest2)
      = Event.text LT_TOK :: Event.text t2 :: rest2 := by
  apply removeComment_eq_self_of_no_close
  intro e he
  rcases List.mem_cons.mp he with h | h
  · subst h; decide
  · exact hno e h

/-- Witness for C2: a split opener followed by a structural break and a
plain text token, none carrying `-->`; everything survives. -/
theorem c2_witness :
    removeComment [Event.text LT_TOK, Event.text (chars "!-- a"), Event.other 0,
        Event.text (chars "b")]
      = [Event.text LT_TOK, Event.text (chars "!-- a"), Event.other 0,
        Event.text (chars "b")] :=
  c2_unclosed_split_restores_all (chars "!-- a") [Event.other 0, Event.text (chars "b")]
    (by decide) (by decide)

/-- C4: the output of `remove_comment` is a sublist of its input — every
output token is an unmodified input token, relative order is preserved,
and hence the output is never longer than the input. -/
theorem c4_output_sublist (l : List Event) :
    List.Sublist (removeComment l) l ∧ (removeComment l).length ≤ l.length :=
  ⟨removeComment_sublist l, (removeComment_sublist l).length_le⟩

/-- C5: an input with no `<!--` occurrence anywhere — neither inside a
single token's payload nor split across a `<` text token and a following
`!--...` text token — is reproduced token for token. -/
theorem c5_no_open_identity (l : List Event) (h : noCommentOpen l = true) :
    removeComment l = l :=
  removeComment_fix_of_noOpen l h

/-- Witness for C5: a stream with markup-free payloads is untouched. -/
theorem c5_witness :
    removeComment [Event.text (chars "hello"), Event.other 3, Event.html (chars "<b>")]
      = [Event.text (chars "hello"), Event.other 3, Event.html (chars "<b>")] :=
  c5_no_open_identity [Event.text (chars "hello"), Event.other 3, Event.html (chars "<b>")]
    (by decide)

/-- C6: in the split-token case, non-text tokens encountered while
scanning (e.g. paragraph-boundary structural tokens) are counted into the
candidate span and discarded with it when a later text token carries the
closing marker: the whole span from `<` through the closer is removed and
processing continues with the tokens after the closer. -/
theorem c6_span_swallows_structural (t2 : List Char) (mid : List Event)
    (c : List Char) (post : List Event)
    (hpre : isPre BANG_DASH_DASH t2 = true) (hnce : endsWithCE t2 = false)
    (hmid : ∀ s : List Char, Event.text s ∈ mid → endsWithCE s = false)
    (hc : endsWithCE c = true) :
    removeComment (Event.text LT_TOK :: Event.text t2 :: (mid ++ Event.text c :: post))
      = removeComment post := by
  rw [removeComment_pair_found hpre hnce (textScan_append_close mid c post hmid hc)]
  congr 1
  have hsplit : mid ++ Event.text c :: post = (mid ++ [Event.text c]) ++ post := by simp
  rw [hsplit]
  exact List.drop_left' (by simp)

/-- Witness for C6: a comment spanning a paragraph break — the opener,
two structural tokens, an intervening html token, and the closing text
token are all removed; the tail is processed normally. -/
theorem c6_witness :
    removeComment [Event.text LT_TOK, Event.text (chars "!-- a"), Event.other 0,
        Event.other 1, Event.html (chars "<i>"), Event.text (chars "b -->"),
        Event.text (chars "tail")]
      = removeComment [Event.text (chars "tail")] :=
  c6_span_swallows_structural (chars "!-- a")
    [Event.other 0, Event.other 1, Event.html (chars "<i>")] (chars "b -->")
    [Event.text (chars "tail")] (by decide) (by decide)
    (by intro s hs; simp at hs) (by decide)

/-- C9: `supports_renderer` answers `true` for every renderer name except
the reserved sentinel `not-supported`, for which it answers `false`. -/
theorem c9_supports_renderer (r : String) :
    supports_renderer r = true ↔ r ≠ "not-supported" := by
  simp [supports_renderer]
/-- C1 (evaluation at the failing input): after the span
`<!--a`,`b-->` closes, the source keeps scanning with a stale counter;
the next closing html token `c-->` makes it consume two more events, so
the never-examined `Event.text "x"` is silently dropped along with
`c-->`.  The claim instead requires the output `[c-->, x, y]` here. -/
theorem c1_whole_token_eval :
    removeComment [Event.html (chars "<!--a"), Event.html (chars "b-->"),
        Event.html (chars "c-->"), Event.text (chars "x"), Event.text (chars "y")]
      = [Event.text (chars "y")] := by
  simp [removeComment, htmlLoop, chars, isPre, endsWithCE, isSuf, trimEnd,
    COMMENT_START, COMMENT_END, BANG_DASH_DASH, LT_TOK, textScan, List.get]

/-- C3 (counterexample): scrubbing is not idempotent.  Removing the
self-closing html comment between `<` and `!-- b -->` makes the two text
tokens adjacent, and only a second pass removes them. -/
theorem c3_not_idempotent :
    removeComment (removeComment [Event.text LT_TOK, Event.html (chars "<!--a-->"),
        Event.text (chars "!-- b -->")])
      ≠ removeComment [Event.text LT_TOK, Event.html (chars "<!--a-->"),
        Event.text (chars "!-- b -->")] := by
  have h1 : removeComment [Event.text LT_TOK, Event.html (chars "<!--a-->"),
      Event.text (chars "!-- b -->")]
      = [Event.text LT_TOK, Event.text (chars "!-- b -->")] := by
    simp [removeComment, htmlLoop, chars, isPre, endsWithCE, isSuf, trimEnd,
      COMMENT_START, COMMENT_END, BANG_DASH_DASH, LT_TOK, textScan, List.get]
  have h2 : removeComment [Event.text LT_TOK, Event.text (chars "!-- b -->")] = [] := by
    simp [removeComment, htmlLoop, chars, isPre, endsWithCE, isSuf, trimEnd,
      COMMENT_START, COMMENT_END, BANG_DASH_DASH, LT_TOK, textScan, List.get]
  rw [h1, h2]
  decide

/-- C3 (amended): scrubbing is idempotent whenever its output contains no
`<!--` occurrence, whole-token or split; in general a removal can create
a new adjacent `<` / `!--...` pair that a second pass removes. -/
theorem c3_idempotent_when_output_open_free (l : List Event)
    (h : noCommentOpen (removeComment l) = true) :
    removeComment (removeComment l) = removeComment l :=
  removeComment_fix_of_noOpen (removeComment l) h

/-- Witness for the amended C3 at a concrete input. -/
theorem c3_witness :
    removeComment (removeComment [Event.text (chars "a")])
      = removeComment [Event.text (chars "a")] :=
  c3_idempotent_when_output_open_free [Event.text (chars "a")] (by
    have h : removeComment [Event.text (chars "a")] = [Event.text (chars "a")] := by
      simp [removeComment, chars]
    rw [h]
    decide)

/-- C7 (counterexample): a self-closing `<!--b-->` html token preceded by
an unterminated opener `<!--a` is consumed as that span's closer, and the
surrounding opener is removed with it — the output is empty rather than
`[<!--a]`, so the surrounding token is not left untouched. -/
theorem c7_not_alone :
    removeComment [Event.html (chars "<!--a"), Event.html (chars "<!--b-->")] = []
      ∧ ([] : List Event) ≠ [Event.html (chars "<!--a")] := by
  constructor
  · simp [removeComment, htmlLoop, chars, isPre, endsWithCE, isSuf, trimEnd,
      COMMENT_START, COMMENT_END, BANG_DASH_DASH, LT_TOK, textScan, List.get]
  · decide

/-- C7 (amended): a RawMarkup token starting with `<!--` whose trimmed
content ends with `-->` is, when it is the current token, removed by
itself — regardless of internal `--` sequences — and scanning resumes at
the next token; it is only removed together with earlier tokens when an
earlier unterminated opener consumes it as its closer. -/
theorem c7_selfclose_dropped_alone (h : List Char) (post : List Event)
    (hpre : isPre COMMENT_START h = true) (hce : endsWithCE h = true) :
    removeComment (Event.html h :: post) = removeComment post :=
  removeComment_html_selfclose hpre hce

/-- Witness for the amended C7: a one-token comment with an internal
`--` is removed by itself. -/
theorem c7_witness :
    removeComment [Event.html (chars "<!-- --double-hyphen -->"), Event.text (chars "t")]
      = removeComment [Event.text (chars "t")] :=
  c7_selfclose_dropped_alone (chars "<!-- --double-hyphen -->") [Event.text (chars "t")]
    (by decide) (by decide)

/-- A payload starting with the four characters `<!--` cannot be the
one-character payload `<`. -/
theorem ne_LT_of_isPre_start {s : List Char} (h : isPre COMMENT_START s = true) :
    s ≠ LT_TOK := by
  intro he
  subst he
  exact absurd h (by decide)

/-- C10 (counterexample): a text token whose payload starts with `<!--`
does not always pass through — here it closes the split span opened by
the preceding `<` / `!--a` pair, and all three tokens are removed. -/
theorem c10_swallowed :
    Event.text (chars "<!-- x -->") ∈ [Event.text LT_TOK, Event.text (chars "!--a"),
        Event.text (chars "<!-- x -->")]
      ∧ removeComment [Event.text LT_TOK, Event.text (chars "!--a"),
        Event.text (chars "<!-- x -->")] = [] := by
  constructor
  · decide
  · simp [removeComment, htmlLoop, chars, isPre, endsWithCE, isSuf, trimEnd,
      COMMENT_START, COMMENT_END, BANG_DASH_DASH, LT_TOK, textScan, List.get]

/-- C10 (amended): a text token whose payload starts with `<!--` never
triggers comment detection as an opener: when it is the current token it
is forwarded unchanged (though an earlier opener's lookahead can still
consume it as part of that span). -/
theorem c10_text_open_passthrough (s : List Char) (rest : List Event)
    (hpre : isPre COMMENT_START s = true) :
    removeComment (Event.text s :: rest) = Event.text s :: removeComment rest := by
  have hne : s ≠ LT_TOK := ne_LT_of_isPre_start hpre
  cases rest with
  | nil => exact removeComment_text_single (fun a b hb => by simp at hb)
  | cons e r =>
      cases e with
      | text t2 => exact removeComment_pair_nlt hne
      | html s2 => exact removeComment_text_single (fun a b hb => by simp at hb)
      | other t => exact removeComment_text_single (fun a b hb => by simp at hb)

/-- Witness for the amended C10. -/
theorem c10_witness :
    removeComment [Event.text (chars "<!-- hi -->"), Event.other 7]
      = Event.text (chars "<!-- hi -->") :: removeComment [Event.other 7] :=
  c10_text_open_passthrough (chars "<!-- hi -->") [Event.other 7] (by decide)
/-- Fuel-indexed variant of `removeComment`: identical branch structure,
but each outer-loop iteration consumes one unit of fuel and the function
reports `none` if the fuel runs out.  Used to state termination
explicitly: `length + 1` units always suffice. -/
def removeCommentFuel : Nat → List Event → Option (List Event)
  | 0, _ => none
  | _ + 1, [] => some []
  | fuel + 1, Event.text t1 :: Event.text t2 :: rest2 =>
      if t1 = LT_TOK then
        if isPre BANG_DASH_DASH t2 then
          if endsWithCE t2 then
            removeCommentFuel fuel rest2
          else
            match textScan rest2 with
            | some count => removeCommentFuel fuel (rest2.drop count)
            | none =>
                (removeCommentFuel fuel (Event.text t2 :: rest2)).map (Event.text t1 :: ·)
        else (removeCommentFuel fuel (Event.text t2 :: rest2)).map (Event.text t1 :: ·)
      else (removeCommentFuel fuel (Event.text t2 :: rest2)).map (Event.text t1 :: ·)
  | fuel + 1, Event.text t1 :: rest => (removeCommentFuel fuel rest).map (Event.text t1 :: ·)
  | fuel + 1, Event.html s :: rest =>
      if isPre COMMENT_START s then
        if endsWithCE s then
          removeCommentFuel fuel rest
        else
          let r := htmlLoop rest 0 0 false
          if r.1 then removeCommentFuel fuel r.2
          else (removeCommentFuel fuel r.2).map (Event.html s :: ·)
      else (removeCommentFuel fuel rest).map (Event.html s :: ·)
  | fuel + 1, Event.other t :: rest => (removeCommentFuel fuel rest).map (Event.other t :: ·)

/-- Any fuel exceeding the input length is enough: the fuel-indexed
scrubber terminates with `some` and agrees with `removeComment`. -/
theorem removeCommentFuel_sound : ∀ fuel : Nat, ∀ l : List Event, l.length < fuel →
    removeCommentFuel fuel l = some (removeComment l) := by
  intro fuel
  induction fuel with
  | zero => intro l h; exact absurd h (Nat.not_lt_zero _)
  | succ n ih =>
      intro l hlen
      match l with
      | [] => simp [removeCommentFuel, removeComment_nil]
      | Event.text t1 :: Event.text t2 :: rest2 =>
          simp only [List.length_cons] at hlen
          by_cases h1 : t1 = LT_TOK
          · subst h1
            by_cases h2 : isPre BANG_DASH_DASH t2 = true
            · by_cases h3 : endsWithCE t2 = true
              · rw [removeComment_pair_selfclose h2 h3]
                simp only [removeCommentFuel, if_pos rfl, if_pos h2, if_pos h3]
                exact ih rest2 (by omega)
              · cases hscan : textScan rest2 with
                | some count =>
                    rw [removeComment_pair_found h2 (by simpa using h3) hscan]
                    simp only [removeCommentFuel, if_pos rfl, if_pos h2, if_neg h3, hscan]
                    exact ih (rest2.drop count) (by simp only [List.length_drop]; omega)
                | none =>
                    rw [removeComment_pair_none h2 (by simpa using h3) hscan]
                    simp only [removeCommentFuel, if_pos rfl, if_pos h2, if_neg h3, hscan]
                    rw [ih (Event.text t2 :: rest2) (by simp only [List.length_cons]; omega)]
                    rfl
            · rw [removeComment_pair_nopre (by simpa using h2)]
              simp only [removeCommentFuel, if_pos rfl, if_neg h2]
              rw [ih (Event.text t2 :: rest2) (by simp only [List.length_cons]; omega)]
              rfl
          · rw [removeComment_pair_nlt h1]
            simp only [removeCommentFuel, if_neg h1]
            rw [ih (Event.text t2 :: rest2) (by simp only [List.length_cons]; omega)]
            rfl
      | Event.text t1 :: [] =>
          simp only [List.length_cons] at hlen
          rw [removeComment_text_single (fun a b hb => by simp at hb)]
          simp only [removeCommentFuel]
          rw [ih [] (by omega)]
          rfl
      | Event.text t1 :: Event.html s2 :: r =>
          simp only [List.length_cons] at hlen
          rw [removeComment_text_single (fun a b hb => by simp at hb)]
          simp only [removeCommentFuel]
          rw [ih (Event.html s2 :: r) (by simp only [List.length_cons]; omega)]
          rfl
      | Event.text t1 :: Event.other t2 :: r =>
          simp only [List.length_cons] at hlen
          rw [removeComment_text_single (fun a b hb => by simp at hb)]
          simp only [removeCommentFuel]
          rw [ih (Event.other t2 :: r) (by simp only [List.length_cons]; omega)]
          rfl
      | Event.html s :: rest =>
          simp only [List.length_cons] at hlen
          have hb := htmlLoop_length_le rest 0 0 false
          by_cases h1 : isPre COMMENT_START s = true
          · by_cases h2 : endsWithCE s = true
            · rw [removeComment_html_selfclose h1 h2]
              simp only [removeCommentFuel, if_pos h1, if_pos h2]
              exact ih rest (by omega)
            · rw [removeComment_html_scan h1 (by simpa using h2)]
              simp only [removeCommentFuel, if_pos h1, if_neg h2]
              by_cases h3 : (htmlLoop rest 0 0 false).1 = true
              · rw [if_pos h3, if_pos h3]
                exact ih (htmlLoop rest 0 0 false).2 (by omega)
              · rw [if_neg h3, if_neg h3]
                rw [ih (htmlLoop rest 0 0 false).2 (by omega)]
                rfl
          · rw [removeComment_html_nopre (by simpa using h1)]
            simp only [removeCommentFuel, if_neg h1]
            rw [ih rest (by omega)]
            rfl
      | Event.other t :: rest =>
          simp only [List.length_cons] at hlen
          rw [removeComment_other]
          simp only [removeCommentFuel]
          rw [ih rest (by omega)]
          rfl

/-- C8: `remove_comment` is total — on every finite input it terminates
(within one outer step per input token) and produces an output; there is
no error outcome, and malformed or unterminated comment markup only ever
yields the "not a comment" result already covered by the other cases. -/
theorem c8_total (l : List Event) :
    removeCommentFuel (l.length + 1) l = some (removeComment l) :=
  removeCommentFuel_sound (l.length + 1) l (Nat.lt_succ_self _)

end NoComment
